import Mathlib

/-!
Verification of the pycommand library (pycommand/pycommand.py, version 0.4.0).

The Python source is shallowly embedded: the option table, the padding and
usage-text computation, the flag-matching loop of `CommandBase.__init__`, the
`run()` dispatcher and the `run_and_exit` entry point become Lean functions.
Python dictionaries (`OrderedDict`, the `flags` dict, the `commands` dict) are
embedded as association lists with Python's insertion semantics (assignment to
an existing key updates it in place, otherwise the pair is appended), and
Python strings as Lean strings manipulated through their character lists.

The underlying tokenizer is the Python standard library module `getopt`, an
external collaborator of this package.  It is embedded here faithfully from
its reference implementation (`getopt.getopt`, `do_longs`, `long_has_args`,
`do_shorts`, `short_has_arg`): the main scanning loop, which in Python is a
`while` loop that consumes at least one argument token per iteration, is
written with a fuel parameter initialised to one more than the number of
argument tokens, which therefore never runs out.
-/

/-- Python `s.startswith(pre)`. -/
def strStartsWith (s pre : String) : Bool := pre.toList.isPrefixOf s.toList

/-- Python `s.endswith(suf)`. -/
def strEndsWith (s suf : String) : Bool := suf.toList.isSuffixOf s.toList

/-- Python `s[n:]`. -/
def strDrop (s : String) (n : Nat) : String := String.mk (s.toList.drop n)

/-- Python `s[:n]`. -/
def strTake (s : String) (n : Nat) : String := String.mk (s.toList.take n)

/-- Python `s[:-n]`. -/
def strDropRight (s : String) (n : Nat) : String :=
  String.mk (s.toList.take (s.toList.length - n))

/-- Python `len(s)`. -/
def strLen (s : String) : Nat := s.toList.length

/-- The error raised by the `getopt` tokenizer (`getopt.GetoptError`), carrying
a message and the offending option text.  `str(err)` is the message. -/
structure GetoptError where
  msg : String
  opt : String
  deriving DecidableEq, Repr

/-- Occurrences returned by the tokenizer: `(option token, value-or-empty)`. -/
abbrev OptOccurrence := String × String

/-- Result of `getopt.getopt`: either an error or the pair
`(option occurrences, residual positional arguments)`. -/
abbrev GetoptResult := Except GetoptError (List OptOccurrence × List String)

/-- `getopt.short_has_arg(opt, shortopts)`: scan the short-option spec for the
letter `opt`; when found (and not a colon) report whether a colon follows. -/
def short_has_arg (opt : Char) : List Char → Except GetoptError Bool
  | [] => .error ⟨"option -" ++ String.mk [opt] ++ " not recognized", String.mk [opt]⟩
  | c :: rest =>
    if opt = c ∧ c ≠ ':' then .ok (rest.head? = some ':')
    else short_has_arg opt rest

/-- `getopt.long_has_args(opt, longopts)`: prefix matching of a long option
name against the long-option specs; returns (takes-value, expanded name). -/
def long_has_args (opt : String) (longopts : List String) :
    Except GetoptError (Bool × String) :=
  match longopts.filter (fun o => strStartsWith o opt) with
  | [] => .error ⟨"option --" ++ opt ++ " not recognized", opt⟩
  | p :: rest =>
    if opt ∈ p :: rest then .ok (false, opt)
    else if (opt ++ "=") ∈ p :: rest then .ok (true, opt)
    else if rest ≠ [] then .error ⟨"option --" ++ opt ++ " not a unique prefix", opt⟩
    else if strEndsWith p "=" then .ok (true, strDropRight p 1)
    else .ok (false, p)

/-- Python `opt.index('=')` splitting in `getopt.do_longs`: split a long token
body at the first `=` into name and explicit value (when present). -/
def splitEq (s : String) : String × Option String :=
  match s.toList.findIdx? (fun c => c == '=') with
  | none => (s, none)
  | some i => (String.mk (s.toList.take i), some (String.mk (s.toList.drop (i + 1))))

/-- `getopt.do_longs`: process one `--…` token (body `optS`, without the
leading dashes), possibly consuming the next argument as its value. -/
def do_longs (opts : List OptOccurrence) (optS : String) (longopts : List String)
    (args : List String) : GetoptResult :=
  let (opt0, optarg0) := splitEq optS
  match long_has_args opt0 longopts with
  | .error e => .error e
  | .ok (has_arg, opt) =>
    if has_arg then
      match optarg0 with
      | none =>
        match args with
        | [] => .error ⟨"option --" ++ opt ++ " requires argument", opt⟩
        | a :: rest => .ok (opts ++ [("--" ++ opt, a)], rest)
      | some v => .ok (opts ++ [("--" ++ opt, v)], args)
    else
      match optarg0 with
      | some _ => .error ⟨"option --" ++ opt ++ " must not have an argument", opt⟩
      | none => .ok (opts ++ [("--" ++ opt, "")], args)

/-- `getopt.do_shorts`: process the body of one `-…` token character by
character, possibly consuming the next argument as the value of the last
letter. -/
def do_shorts (opts : List OptOccurrence) (optstring : List Char)
    (shortopts : List Char) (args : List String) : GetoptResult :=
  match optstring with
  | [] => .ok (opts, args)
  | opt :: rest =>
    match short_has_arg opt shortopts with
    | .error e => .error e
    | .ok true =>
      match rest with
      | [] =>
        match args with
        | [] => .error ⟨"option -" ++ String.mk [opt] ++ " requires argument",
                        String.mk [opt]⟩
        | a :: args' => .ok (opts ++ [("-" ++ String.mk [opt], a)], args')
      | _ => .ok (opts ++ [("-" ++ String.mk [opt], String.mk rest)], args)
    | .ok false => do_shorts (opts ++ [("-" ++ String.mk [opt], "")]) rest shortopts args

/-- The main `while` loop of `getopt.getopt`.  Each iteration consumes at
least one token of `args`, so fuel `args.length + 1` always suffices. -/
def getoptLoop (fuel : Nat) (opts : List OptOccurrence) (args : List String)
    (shortopts : List Char) (longopts : List String) : GetoptResult :=
  match fuel with
  | 0 => .error ⟨"getopt fuel exhausted", ""⟩
  | fuel + 1 =>
    match args with
    | [] => .ok (opts, args)
    | a :: rest =>
      if strStartsWith a "-" && !(a == "-") then
        if a = "--" then .ok (opts, rest)
        else if strStartsWith a "--" then
          match do_longs opts (strDrop a 2) longopts rest with
          | .error e => .error e
          | .ok (opts', args') => getoptLoop fuel opts' args' shortopts longopts
        else
          match do_shorts opts (strDrop a 1).toList shortopts rest with
          | .error e => .error e
          | .ok (opts', args') => getoptLoop fuel opts' args' shortopts longopts
      else .ok (opts, a :: rest)

/-- `getopt.getopt(args, shortopts, longopts)`. -/
def getopt (args : List String) (shortopts : String) (longopts : List String) :
    GetoptResult :=
  getoptLoop (args.length + 1) [] args shortopts.toList longopts

/-- Values stored in the `flags` dictionary of a command instance.  Python
stores `None` before an option is seen (`unset` here), `True` for a boolean
option that occurred, and the raw argument string for a value option. -/
inductive Flagv where
  | unset
  | vbool (b : Bool)
  | vstr (s : String)
  deriving DecidableEq, Repr

/-- One value of the `optionList` table: `(short letter, argument
placeholder, description)`.  Python writes `False` or `''` for a missing
short letter or placeholder; both are falsy and only their truthiness and
(when truthy) their text are ever used, so the empty string encodes
absence of either. -/
structure OptVal where
  short : String
  arg : String
  desc : String
  deriving DecidableEq, Repr

/-- Python dictionary assignment `d[k] = v`: update the entry in place when
the key is present, append the pair otherwise.  Used for `OrderedDict`
construction and for the `flags` dict. -/
def dictSet {β : Type} (l : List (String × β)) (k : String) (v : β) :
    List (String × β) :=
  if k ∈ l.map Prod.fst then l.map (fun p => if p.1 = k then (k, v) else p)
  else l ++ [(k, v)]

/-- Python dictionary lookup `d[k]` (`None`-free: `none` means the key is
absent, i.e. `k in d` is false). -/
def dictGet {β : Type} : List (String × β) → String → Option β
  | [], _ => none
  | p :: t, k => if p.1 = k then some p.2 else dictGet t k

/-- Python `OrderedDict(self.optionList)`: fold the declared pairs into an
ordered dictionary with Python insertion semantics. -/
def toOrderedDict (l : List (String × OptVal)) : List (String × OptVal) :=
  l.foldl (fun acc p => dictSet acc p.1 p.2) []

/-- The per-option width estimate of `CommandBase.__init__`:
`optlen = len(flag) + 2`, `+ 4` when a short letter exists, `+ len(arg) + 1`
when both a short letter and a placeholder exist, and `+ len(arg) + 1` again
when a placeholder exists. -/
def optlen (flag : String) (val : OptVal) : Nat :=
  strLen flag + 2 + (if val.short ≠ "" then 4 else 0)
    + (if val.short ≠ "" ∧ val.arg ≠ "" then strLen val.arg + 1 else 0)
    + (if val.arg ≠ "" then strLen val.arg + 1 else 0)

/-- The padding loop of `CommandBase.__init__`:
`padding = optlen if optlen > padding else padding`, starting from 0. -/
def paddingOf (table : List (String × OptVal)) : Nat :=
  table.foldl
    (fun padding p => if optlen p.1 p.2 > padding then optlen p.1 p.2 else padding) 0

/-- The long-option specs handed to the tokenizer:
`flag + '='` when the option takes a value, else `flag`, in table order. -/
def longoptsOf (table : List (String × OptVal)) : List String :=
  table.foldl (fun acc p => acc ++ [if p.2.arg ≠ "" then p.1 ++ "=" else p.1]) []

/-- The short-option spec string handed to the tokenizer: for each option
with a short letter, the letter followed by `':'` when it takes a value. -/
def shortoptsOf (table : List (String × OptVal)) : String :=
  table.foldl
    (fun acc p =>
      if p.2.short ≠ "" then
        acc ++ (if p.2.arg ≠ "" then p.2.short ++ ":" else p.2.short)
      else acc) ""

/-- The initial `flags` dict: `self.flags.update({flag: None})` per option. -/
def initFlags (table : List (String × OptVal)) : List (String × Flagv) :=
  table.foldl (fun fl p => dictSet fl p.1 Flagv.unset) []

/-- `flagstring_long` of `CommandBase.__init__`:
`'{flag}={argument}'` when the option takes a value, else the flag name. -/
def flagstring_long (flag : String) (val : OptVal) : String :=
  if val.arg ≠ "" then flag ++ "=" ++ val.arg else flag

/-- `flagstring_short` of `CommandBase.__init__` (as used, i.e. only when a
short letter exists): `'{short} {argument}'` when the option takes a value,
else the short letter. -/
def flagstring_short (val : OptVal) : String :=
  if val.arg ≠ "" then val.short ++ " " ++ val.arg else val.short

/-- `optline` of `CommandBase.__init__`:
`'-{flagstring_short}, --{flagstring_long}'` when a short letter exists, else
`'--{flagstring_long}'`. -/
def optlineOf (flag : String) (val : OptVal) : String :=
  if val.short ≠ "" then "-" ++ flagstring_short val ++ ", " ++ "--" ++ flagstring_long flag val
  else "--" ++ flagstring_long flag val

/-- Python `'{options:{padding}}'.format(...)`: left-justify with spaces to
the given width. -/
def ljust (s : String) (w : Nat) : String :=
  s ++ String.mk (List.replicate (w - strLen s) ' ')

/-- One line of the options block:
`'{options:{padding}}  {desc}\n'.format(options=optline, ...)`. -/
def optLine (padding : Nat) (flag : String) (val : OptVal) : String :=
  ljust (optlineOf flag val) padding ++ "  " ++ val.desc ++ "\n"

/-- The accumulated `opthelp` string of `CommandBase.__init__`. -/
def opthelpOf (padding : Nat) (table : List (String × OptVal)) : String :=
  table.foldl (fun acc p => acc ++ optLine padding p.1 p.2) ""

/-- A command class: the class-level attributes of a `CommandBase`
subclass.  `α` is the type of values returned by the registered subcommand
entry points (what `self.commands[name](argv=...)` returns). -/
structure CommandClass (α : Type) where
  usagestr : String
  description : String
  optionList : List (String × OptVal)
  usageTextExtra : String
  commands : List (String × (List String → α))

/-- The normalized option table of a command class,
`OrderedDict(self.optionList)`. -/
def tableOf {α : Type} (c : CommandClass α) : List (String × OptVal) :=
  toOrderedDict c.optionList

/-- Assembly of `self.usage` from `usagestr`, `description`, the options
block and `usageTextExtra`. -/
def usageOf {α : Type} (c : CommandClass α) : String :=
  let table := tableOf c
  let u := c.usagestr
  let u := if c.description ≠ "" then u ++ "\n\n" ++ c.description else u
  let u := if table ≠ [] then u ++ "\n\nOptions:\n" ++ opthelpOf (paddingOf table) table else u
  if c.usageTextExtra ≠ "" then u ++ "\n" ++ c.usageTextExtra else u

/-- The matching condition of the flag loop: for a returned occurrence
`o`, Python tests `opt[0][1] != '-'` to distinguish short from long form,
then compares `opt[0][1]` with the declared short letter, respectively
`opt[0][2:]` with the declared flag name. -/
def optMatches (o : OptOccurrence) (flag : String) (val : OptVal) : Bool :=
  if strTake (strDrop o.1 1) 1 ≠ "-" then decide (strTake (strDrop o.1 1) 1 = val.short)
  else decide (strDrop o.1 2 = flag)

/-- The value stored on a match: `opt[1]` when the option takes a value,
else `True`. -/
def flagValue (o : OptOccurrence) (val : OptVal) : Flagv :=
  if val.arg ≠ "" then .vstr o.2 else .vbool true

/-- One step of the inner loop over the option table. -/
def applyOpt (fl : List (String × Flagv)) (o : OptOccurrence) (flag : String)
    (val : OptVal) : List (String × Flagv) :=
  if optMatches o flag val then dictSet fl flag (flagValue o val) else fl

/-- The full matching loop of `CommandBase.__init__`: for each returned
occurrence, scan the whole option table and set flags. -/
def matchOpts (opts : List OptOccurrence) (table : List (String × OptVal))
    (fl : List (String × Flagv)) : List (String × Flagv) :=
  opts.foldl (fun fl o => table.foldl (fun fl p => applyOpt fl o p.1 p.2) fl) fl

/-- The state of a constructed command instance after
`CommandBase.__init__`. -/
structure CommandInstance (α : Type) where
  error : Option GetoptError
  flags : List (String × Flagv)
  args : List String
  usage : String
  commands : List (String × (List String → α))

/-- `CommandBase.__init__(argv)`: build the usage string and the tokenizer
specs, call `getopt`, and on success run the matching loop.  On a
`GetoptError` the error is stored, the flags stay at their initial unset
state and `self.args` keeps its initial empty value. -/
def initCommand {α : Type} (c : CommandClass α) (argv : List String) :
    CommandInstance α :=
  match getopt argv (shortoptsOf (tableOf c)) (longoptsOf (tableOf c)) with
  | .error e =>
    { error := some e, flags := initFlags (tableOf c), args := [],
      usage := usageOf c, commands := c.commands }
  | .ok (opts, args) =>
    { error := none, flags := matchOpts opts (tableOf c) (initFlags (tableOf c)),
      args := args, usage := usageOf c, commands := c.commands }

/-- Outcome of `CommandBase.run()`: either a `CommandExit(n)` signal raised
after printing some text, or the value returned by a dispatched
subcommand entry point. -/
inductive RunOutcome (α : Type) where
  | commandExit (printed : String) (status : Nat)
  | result (a : α)

/-- `CommandBase.run()`: empty positionals print the usage and raise
`CommandExit(2)`; a first positional that is a key of `self.commands`
dispatches to it with the remaining positionals; otherwise an error line is
printed and `CommandExit(1)` is raised. -/
def CommandInstance.run {α : Type} (cmd : CommandInstance α) : RunOutcome α :=
  match cmd.args with
  | [] => .commandExit cmd.usage 2
  | a :: rest =>
    match dictGet cmd.commands a with
    | some f => .result (f rest)
    | none => .commandExit ("error: command " ++ a ++ " does not exist") 1

/-- `sys.exit(value)` on the value returned by `run()`: `None` exits with
status 0, an integer exits with that status. -/
def sysExitStatus (v : Option Int) : Int :=
  match v with
  | none => 0
  | some n => n

/-- Observable outcome of `run_and_exit`: a clean termination with the lines
it printed and an exit status, or an uncaught `CommandExit` signal escaping
`sys.exit(cmd.run())` (when `run()` raises instead of returning). -/
inductive ProcessOutcome where
  | exited (printed : List String) (status : Int)
  | uncaughtExit (printed : List String) (code : Nat)
  deriving Repr

/-- `run_and_exit(command_class)`: construct the command from the argument
vector; on a stored parse error print `error: {err}` (where `str` of a
`GetoptError` is its message) and exit with status 1, else exit with the
value `run()` returns. -/
def run_and_exit (c : CommandClass (Option Int)) (argv : List String) :
    ProcessOutcome :=
  let cmd := initCommand c argv
  match cmd.error with
  | some e => .exited ["error: " ++ e.msg] 1
  | none =>
    match cmd.run with
    | .result v => .exited [] (sysExitStatus v)
    | .commandExit printed code => .uncaughtExit [printed] code

/-- `dictobject.__getattr__`: attribute access on the flags dictionary
returns the stored value for a present key and raises
`OptionError("Option '{}' is not defined")` otherwise. -/
def dictobject_getattr (d : List (String × Flagv)) (name : String) :
    Except String Flagv :=
  match dictGet d name with
  | some v => .ok v
  | none => .error ("Option '" ++ name ++ "' is not defined")

/-- Spec-side predicate for claim C6: a token that the tokenizer would
consume as an option, i.e. one starting with a dash other than the bare
`"-"` (this includes the end-of-options marker `"--"`, which is consumed). -/
def isOptionToken (t : String) : Bool := strStartsWith t "-" && !(t == "-")

/-- Spec-side width estimate for claim C2, written from the claim's words:
the long-flag name length plus 2, plus 4 if a short letter exists, plus the
placeholder length plus 1 if both a short letter and a placeholder exist,
plus the placeholder length plus 1 again if a placeholder exists. -/
def claimWidth (p : String × OptVal) : Nat :=
  strLen p.1 + 2 + (if p.2.short ≠ "" then 4 else 0)
    + (if p.2.short ≠ "" ∧ p.2.arg ≠ "" then strLen p.2.arg + 1 else 0)
    + (if p.2.arg ≠ "" then strLen p.2.arg + 1 else 0)

/-- Spec-side rendering for claim C3, written from the claim's words: the
line is `-{short}, --{long}[=<placeholder>]` when a short letter exists and
`--{long}[=<placeholder>]` otherwise, left-justified to the padding width,
followed by exactly two spaces, the description and a newline. -/
def claimOptLine (padding : Nat) (flag : String) (val : OptVal) : String :=
  let long := if val.arg ≠ "" then "--" ++ flag ++ "=" ++ val.arg else "--" ++ flag
  let body := if val.short ≠ "" then "-" ++ val.short ++ ", " ++ long else long
  ljust body padding ++ "  " ++ val.desc ++ "\n"

/-- The amended rendering for claim C3: when the option takes a value, the
placeholder also follows the short letter, separated by one space. -/
def amendedOptLine (padding : Nat) (flag : String) (val : OptVal) : String :=
  let long := if val.arg ≠ "" then "--" ++ flag ++ "=" ++ val.arg else "--" ++ flag
  let body :=
    if val.short ≠ "" then
      if val.arg ≠ "" then "-" ++ val.short ++ " " ++ val.arg ++ ", " ++ long
      else "-" ++ val.short ++ ", " ++ long
    else long
  ljust body padding ++ "  " ++ val.desc ++ "\n"

theorem dictGet_replace_self {β : Type} (l : List (String × β)) (k : String) (v : β)
    (h : k ∈ l.map Prod.fst) :
    dictGet (l.map (fun p => if p.1 = k then (k, v) else p)) k = some v := by
  induction l with
  | nil => simp at h
  | cons p t ih =>
    by_cases hp : p.1 = k
    · simp [dictGet, hp]
    · simp only [List.map_cons, List.mem_cons] at h
      rcases h with h | h
      · exact absurd h.symm hp
      · simp [dictGet, hp, ih h]

theorem dictGet_append_self {β : Type} (l : List (String × β)) (k : String) (v : β)
    (h : k ∉ l.map Prod.fst) :
    dictGet (l ++ [(k, v)]) k = some v := by
  induction l with
  | nil => simp [dictGet]
  | cons p t ih =>
    simp only [List.map_cons, List.mem_cons, not_or] at h
    have hp : ¬ p.1 = k := fun hh => h.1 hh.symm
    simpa [dictGet, hp] using ih h.2

theorem dictGet_dictSet_self {β : Type} (l : List (String × β)) (k : String) (v : β) :
    dictGet (dictSet l k v) k = some v := by
  unfold dictSet
  split
  · exact dictGet_replace_self l k v (by assumption)
  · exact dictGet_append_self l k v (by assumption)

theorem dictGet_replace_other {β : Type} (l : List (String × β)) (k : String) (v : β)
    (k' : String) (h : k' ≠ k) :
    dictGet (l.map (fun p => if p.1 = k then (k, v) else p)) k' = dictGet l k' := by
  induction l with
  | nil => rfl
  | cons p t ih =>
    by_cases hp : p.1 = k
    · have h1 : ¬ k = k' := fun hh => h hh.symm
      have h2 : ¬ p.1 = k' := by rw [hp]; exact h1
      simp [dictGet, hp, h1, h2, ih]
    · by_cases hp' : p.1 = k' <;> simp [dictGet, hp, hp', h, ih]

theorem dictGet_append_other {β : Type} (l : List (String × β)) (k : String) (v : β)
    (k' : String) (h : k' ≠ k) :
    dictGet (l ++ [(k, v)]) k' = dictGet l k' := by
  induction l with
  | nil =>
    have h1 : ¬ k = k' := fun hh => h hh.symm
    simp [dictGet, h1]
  | cons p t ih =>
    by_cases hp : p.1 = k' <;> simp [dictGet, hp, ih]

theorem dictGet_dictSet_other {β : Type} (l : List (String × β)) (k : String) (v : β)
    (k' : String) (h : k' ≠ k) :
    dictGet (dictSet l k v) k' = dictGet l k' := by
  unfold dictSet
  split
  · exact dictGet_replace_other l k v k' h
  · exact dictGet_append_other l k v k' h

theorem dictGet_eq_none {β : Type} (l : List (String × β)) (k : String)
    (h : k ∉ l.map Prod.fst) : dictGet l k = none := by
  induction l with
  | nil => rfl
  | cons p t ih =>
    simp only [List.map_cons, List.mem_cons, not_or] at h
    have hp : ¬ p.1 = k := fun hh => h.1 hh.symm
    simpa [dictGet, hp] using ih h.2

theorem dictGet_isSome {β : Type} (l : List (String × β)) (k : String)
    (h : k ∈ l.map Prod.fst) : (dictGet l k).isSome := by
  induction l with
  | nil => simp at h
  | cons p t ih =>
    by_cases hp : p.1 = k
    · simp [dictGet, hp]
    · simp only [List.map_cons, List.mem_cons] at h
      rcases h with h | h
      · exact absurd h.symm hp
      · simpa [dictGet, hp] using ih h

theorem replace_keys {β : Type} (l : List (String × β)) (k : String) (v : β) :
    (l.map (fun p => if p.1 = k then (k, v) else p)).map Prod.fst = l.map Prod.fst := by
  induction l with
  | nil => rfl
  | cons p t ih =>
    by_cases hp : p.1 = k <;> simp [hp, ih]

theorem dictSet_keys_of_mem {β : Type} (l : List (String × β)) (k : String) (v : β)
    (h : k ∈ l.map Prod.fst) :
    (dictSet l k v).map Prod.fst = l.map Prod.fst := by
  unfold dictSet
  rw [if_pos h]
  exact replace_keys l k v

theorem dictSet_keys_nodup {β : Type} (l : List (String × β)) (k : String) (v : β)
    (h : (l.map Prod.fst).Nodup) : ((dictSet l k v).map Prod.fst).Nodup := by
  unfold dictSet
  split
  · rw [replace_keys]; exact h
  · rename_i hk
    rw [List.map_append]
    simp [List.nodup_append, h, hk]

theorem foldl_dictSet_keys_nodup (l : List (String × OptVal))
    (acc : List (String × OptVal)) (h : (acc.map Prod.fst).Nodup) :
    (((l.foldl (fun acc p => dictSet acc p.1 p.2) acc)).map Prod.fst).Nodup := by
  induction l generalizing acc with
  | nil => exact h
  | cons p t ih => exact ih _ (dictSet_keys_nodup acc p.1 p.2 h)

theorem toOrderedDict_keys_nodup (l : List (String × OptVal)) :
    ((toOrderedDict l).map Prod.fst).Nodup :=
  foldl_dictSet_keys_nodup l [] (by simp)

theorem tableOf_keys_nodup {α : Type} (c : CommandClass α) :
    ((tableOf c).map Prod.fst).Nodup :=
  toOrderedDict_keys_nodup c.optionList

theorem foldl_initFlags_eq (l : List (String × OptVal)) (acc : List (String × Flagv))
    (hnd : (l.map Prod.fst).Nodup)
    (hdisj : ∀ p ∈ l, p.1 ∉ acc.map Prod.fst) :
    l.foldl (fun fl p => dictSet fl p.1 Flagv.unset) acc
      = acc ++ l.map (fun p => (p.1, Flagv.unset)) := by
  induction l generalizing acc with
  | nil => simp
  | cons p t ih =>
    simp only [List.map_cons, List.nodup_cons] at hnd
    have hp : p.1 ∉ acc.map Prod.fst := hdisj p (by simp)
    have hset : dictSet acc p.1 Flagv.unset = acc ++ [(p.1, Flagv.unset)] := by
      unfold dictSet; rw [if_neg hp]
    simp only [List.foldl_cons, hset]
    rw [ih (acc ++ [(p.1, Flagv.unset)]) hnd.2]
    · simp
    · intro q hq
      rw [List.map_append, List.mem_append]
      rintro (hin | hin)
      · exact hdisj q (List.mem_cons_of_mem p hq) hin
      · simp only [List.map_cons, List.map_nil, List.mem_singleton] at hin
        exact hnd.1 (hin ▸ List.mem_map_of_mem Prod.fst hq)

theorem initFlags_eq (table : List (String × OptVal))
    (hnd : (table.map Prod.fst).Nodup) :
    initFlags table = table.map (fun p => (p.1, Flagv.unset)) := by
  have h := foldl_initFlags_eq table [] hnd (by simp)
  simpa [initFlags] using h

theorem dictGet_map_unset (table : List (String × OptVal)) (f : String)
    (h : f ∈ table.map Prod.fst) :
    dictGet (table.map fun p => (p.1, Flagv.unset)) f = some Flagv.unset := by
  induction table with
  | nil => simp at h
  | cons p t ih =>
    by_cases hp : p.1 = f
    · simp [dictGet, hp]
    · simp only [List.map_cons, List.mem_cons] at h
      rcases h with h | h
      · exact absurd h.symm hp
      · simpa [dictGet, hp] using ih h

theorem initFlags_keys (table : List (String × OptVal))
    (hnd : (table.map Prod.fst).Nodup) :
    (initFlags table).map Prod.fst = table.map Prod.fst := by
  rw [initFlags_eq table hnd, List.map_map]
  rfl

theorem applyOpt_keys (fl : List (String × Flagv)) (o : OptOccurrence)
    (flag : String) (val : OptVal) (h : flag ∈ fl.map Prod.fst) :
    (applyOpt fl o flag val).map Prod.fst = fl.map Prod.fst := by
  unfold applyOpt
  split
  · exact dictSet_keys_of_mem fl flag (flagValue o val) h
  · rfl

theorem matchRow_keys (table : List (String × OptVal)) (o : OptOccurrence)
    (fl : List (String × Flagv)) (h : ∀ p ∈ table, p.1 ∈ fl.map Prod.fst) :
    ((table.foldl (fun fl p => applyOpt fl o p.1 p.2) fl)).map Prod.fst
      = fl.map Prod.fst := by
  induction table generalizing fl with
  | nil => rfl
  | cons p t ih =>
    simp only [List.foldl_cons]
    have hk : (applyOpt fl o p.1 p.2).map Prod.fst = fl.map Prod.fst :=
      applyOpt_keys fl o p.1 p.2 (h p (by simp))
    rw [ih (applyOpt fl o p.1 p.2)
      (fun q hq => by rw [hk]; exact h q (List.mem_cons_of_mem p hq)), hk]

theorem matchOpts_keys (opts : List OptOccurrence) (table : List (String × OptVal))
    (fl : List (String × Flagv)) (h : ∀ p ∈ table, p.1 ∈ fl.map Prod.fst) :
    (matchOpts opts table fl).map Prod.fst = fl.map Prod.fst := by
  induction opts generalizing fl with
  | nil => rfl
  | cons o os ih =>
    simp only [matchOpts, List.foldl_cons]
    have hrow := matchRow_keys table o fl h
    have ih' := ih (table.foldl (fun fl p => applyOpt fl o p.1 p.2) fl)
      (fun q hq => by rw [hrow]; exact h q hq)
    simpa only [matchOpts] using ih'.trans hrow

theorem matchRow_ne (table : List (String × OptVal)) (o : OptOccurrence)
    (fl : List (String × Flagv)) (f : String) (h : ∀ p ∈ table, p.1 ≠ f) :
    dictGet (table.foldl (fun fl p => applyOpt fl o p.1 p.2) fl) f = dictGet fl f := by
  induction table generalizing fl with
  | nil => rfl
  | cons p t ih =>
    simp only [List.foldl_cons]
    rw [ih (applyOpt fl o p.1 p.2) (fun q hq => h q (List.mem_cons_of_mem p hq))]
    unfold applyOpt
    split
    · exact dictGet_dictSet_other fl p.1 (flagValue o p.2) f
        (fun hh => h p (by simp) hh.symm)
    · rfl

theorem matchRow_mem (table : List (String × OptVal)) (o : OptOccurrence)
    (fl : List (String × Flagv)) (f : String) (v : OptVal)
    (hmem : (f, v) ∈ table) (hnd : (table.map Prod.fst).Nodup) :
    dictGet (table.foldl (fun fl p => applyOpt fl o p.1 p.2) fl) f
      = if optMatches o f v then some (flagValue o v) else dictGet fl f := by
  induction table generalizing fl with
  | nil => simp at hmem
  | cons p t ih =>
    simp only [List.map_cons, List.nodup_cons] at hnd
    simp only [List.foldl_cons]
    rcases List.mem_cons.mp hmem with heq | hmemt
    · have hp : p = (f, v) := heq.symm
      subst hp
      have htail : ∀ q ∈ t, q.1 ≠ f := by
        intro q hq hqf
        apply hnd.1
        have hq1 : q.1 ∈ t.map Prod.fst := List.mem_map_of_mem Prod.fst hq
        rwa [hqf] at hq1
      rw [matchRow_ne t o _ f htail]
      unfold applyOpt
      split
      · exact dictGet_dictSet_self fl f (flagValue o v)
      · rfl
    · have hpf : p.1 ≠ f := by
        intro hh
        apply hnd.1
        have hq1 : f ∈ t.map Prod.fst := List.mem_map_of_mem Prod.fst hmemt
        rwa [hh]
      rw [ih (applyOpt fl o p.1 p.2) hmemt hnd.2]
      have hpres : dictGet (applyOpt fl o p.1 p.2) f = dictGet fl f := by
        unfold applyOpt
        split
        · exact dictGet_dictSet_other fl p.1 (flagValue o p.2) f (Ne.symm hpf)
        · rfl
      rw [hpres]

theorem matchOpts_bool (opts : List OptOccurrence) (table : List (String × OptVal))
    (fl : List (String × Flagv)) (f : String) (v : OptVal)
    (hmem : (f, v) ∈ table) (hnd : (table.map Prod.fst).Nodup) (hbool : v.arg = "") :
    dictGet (matchOpts opts table fl) f
      = if opts.any (fun o => optMatches o f v) then some (Flagv.vbool true)
        else dictGet fl f := by
  induction opts generalizing fl with
  | nil => rfl
  | cons o os ih =>
    simp only [matchOpts, List.foldl_cons]
    have hval : flagValue o v = Flagv.vbool true := by
      unfold flagValue
      simp [hbool]
    have step := matchRow_mem table o fl f v hmem hnd
    have ihs := ih (table.foldl (fun fl p => applyOpt fl o p.1 p.2) fl)
    simp only [matchOpts] at ihs
    rw [ihs, step, hval]
    by_cases h1 : os.any (fun o => optMatches o f v)
      <;> by_cases h2 : optMatches o f v = true
      <;> simp [h1, h2]

theorem initCommand_flags_keys {α : Type} (c : CommandClass α) (argv : List String) :
    ((initCommand c argv).flags).map Prod.fst = (tableOf c).map Prod.fst := by
  unfold initCommand
  split
  · exact initFlags_keys _ (tableOf_keys_nodup c)
  · rw [matchOpts_keys, initFlags_keys _ (tableOf_keys_nodup c)]
    intro p hp
    rw [initFlags_keys _ (tableOf_keys_nodup c)]
    exact List.mem_map_of_mem Prod.fst hp

theorem paddingOf_foldl (l : List (String × OptVal)) (acc : Nat) :
    l.foldl (fun padding p => if optlen p.1 p.2 > padding then optlen p.1 p.2 else padding) acc
      = Nat.max acc ((l.map (fun p => optlen p.1 p.2)).foldr Nat.max 0) := by
  induction l generalizing acc with
  | nil => simp
  | cons p t ih =>
    simp only [List.foldl_cons, List.map_cons, List.foldr_cons, ih]
    simp only [Nat.max_def]
    split_ifs <;> omega

/-- C1: `run()` evaluates exactly three outcomes in order: empty positional
list prints the usage text and signals exit-status 2; a first positional
that is a key of the command registry invokes the registered entry point on
the remaining positionals and returns its result; otherwise it reports that
the command does not exist and signals exit-status 1. -/
theorem C1_run_trichotomy {α : Type} (cmd : CommandInstance α) :
    (cmd.args = [] → cmd.run = RunOutcome.commandExit cmd.usage 2) ∧
    (∀ a rest f, cmd.args = a :: rest → dictGet cmd.commands a = some f →
      cmd.run = RunOutcome.result (f rest)) ∧
    (∀ a rest, cmd.args = a :: rest → dictGet cmd.commands a = none →
      cmd.run = RunOutcome.commandExit ("error: command " ++ a ++ " does not exist") 1) := by
  refine ⟨fun h => ?_, fun a rest f h hf => ?_, fun a rest h hf => ?_⟩
  · simp [CommandInstance.run, h]
  · simp [CommandInstance.run, h, hf]
  · simp [CommandInstance.run, h, hf]

/-- A concrete instance with a registered `build` subcommand, positionals
`["build", "-n"]`. -/
def demoInstance : CommandInstance (List String) :=
  { error := none, flags := [], args := ["build", "-n"],
    usage := "usage: command [options]",
    commands := [("build", fun v => v)] }

/-- The same instance with no positional arguments. -/
def demoEmpty : CommandInstance (List String) :=
  { demoInstance with args := [] }

/-- The same instance with an unregistered first positional. -/
def demoUnknown : CommandInstance (List String) :=
  { demoInstance with args := ["clean"] }

theorem C1_run_trichotomy_witness :
    demoEmpty.run = RunOutcome.commandExit "usage: command [options]" 2 ∧
    demoInstance.run = RunOutcome.result ["-n"] ∧
    demoUnknown.run = RunOutcome.commandExit "error: command clean does not exist" 1 :=
  ⟨(C1_run_trichotomy demoEmpty).1 rfl,
   (C1_run_trichotomy demoInstance).2.1 "build" ["-n"] (fun v => v) rfl rfl,
   (C1_run_trichotomy demoUnknown).2.2 "clean" [] rfl rfl⟩

/-- C2: the usage-text padding width equals the maximum over all declared
options of the width estimate (long-flag length + 2, + 4 for a short
letter, + placeholder length + 1 when both short letter and placeholder
exist, + placeholder length + 1 again when a placeholder exists — the
placeholder is counted twice for a value option with both forms). -/
theorem C2_padding_is_max (table : List (String × OptVal)) :
    paddingOf table = (table.map claimWidth).foldr Nat.max 0 := by
  have h : table.map claimWidth = table.map (fun p => optlen p.1 p.2) := rfl
  rw [h]
  unfold paddingOf
  rw [paddingOf_foldl]
  exact Nat.zero_max _

/-- The value-taking option of the spec's concrete scenario. -/
def fileOptVal : OptVal :=
  { short := "f", arg := "<filename>", desc := "use specified file" }

/-- A one-option table declaring only `fileOptVal`. -/
def fileTable : List (String × OptVal) := [("file", fileOptVal)]

/-- C3 counterexample: for the declared option
`('file', ('f', '<filename>', 'use specified file'))` the line actually
rendered is `-f <filename>, --file=<filename>  use specified file\n`,
not the claim's `-{short}, --{long}=<placeholder>` shape
(`-f, --file=<filename>` padded): the placeholder also follows the short
letter. -/
theorem C3_counterexample :
    optLine (paddingOf fileTable) "file" fileOptVal
      ≠ claimOptLine (paddingOf fileTable) "file" fileOptVal := by
  decide

/-- C3 (amended): each option line is rendered as
`-{short} <placeholder>, --{long}=<placeholder>` when a short letter exists
and the option takes a value, `-{short}, --{long}` when a short letter
exists and the option is boolean, and `--{long}[=<placeholder>]` otherwise,
left-justified to the table-wide padding width, followed by exactly two
spaces, the description, and a newline. -/
theorem C3_optline_amended (padding : Nat) (flag : String) (val : OptVal) :
    optLine padding flag val = amendedOptLine padding flag val := by
  unfold optLine amendedOptLine optlineOf flagstring_short flagstring_long
  split_ifs <;> simp only [String.append_assoc]

/-- C4: when the tokenizer fails, construction captures the failure as the
instance's parse error, performs no flag matching (the flags are exactly the
initial all-unset dictionary), and returns it for inspection instead of
propagating an exception (`initCommand` is a total function into
`CommandInstance`). -/
theorem C4_tokenizer_failure_captured {α : Type} (c : CommandClass α)
    (argv : List String) (e : GetoptError)
    (h : getopt argv (shortoptsOf (tableOf c)) (longoptsOf (tableOf c))
      = Except.error e) :
    (initCommand c argv).error = some e ∧
    (initCommand c argv).flags = initFlags (tableOf c) ∧
    (initCommand c argv).args = [] := by
  unfold initCommand
  rw [h]
  exact ⟨rfl, rfl, rfl⟩

/-- The basic example class of the source's docstring: a boolean `help`
option and a value-taking `file` option. -/
def demoClass : CommandClass (Option Int) :=
  { usagestr := "usage: basic-example [options]"
    description := "An example of a basic CLI program"
    optionList :=
      [("help", { short := "h", arg := "", desc := "show this help information" }),
       ("file", { short := "f", arg := "<filename>", desc := "use specified file" })]
    usageTextExtra := ""
    commands := [] }

/-- The tokenizer error produced by `--bogus` against `demoClass`. -/
def bogusError : GetoptError := ⟨"option --bogus not recognized", "bogus"⟩

theorem C4_witness :
    getopt ["--bogus"] (shortoptsOf (tableOf demoClass)) (longoptsOf (tableOf demoClass))
      = Except.error bogusError ∧
    (initCommand demoClass ["--bogus"]).error = some bogusError ∧
    (initCommand demoClass ["--bogus"]).flags = initFlags (tableOf demoClass) ∧
    (initCommand demoClass ["--bogus"]).args = [] :=
  ⟨rfl, C4_tokenizer_failure_captured demoClass ["--bogus"] bogusError rfl⟩

/-- C5: after a successful parse, a declared boolean option's flag value is
boolean `True` exactly when some matched occurrence spells it (short letter
or long name), and the unset sentinel otherwise — never boolean `False`. -/
theorem C5_boolean_flag {α : Type} (c : CommandClass α) (argv : List String)
    (f : String) (v : OptVal) (opts : List OptOccurrence) (rest : List String)
    (hmem : (f, v) ∈ tableOf c) (hbool : v.arg = "")
    (hok : getopt argv (shortoptsOf (tableOf c)) (longoptsOf (tableOf c))
      = Except.ok (opts, rest)) :
    dictGet (initCommand c argv).flags f
      = some (if opts.any (fun o => optMatches o f v) then Flagv.vbool true
              else Flagv.unset) := by
  unfold initCommand
  rw [hok]
  show dictGet (matchOpts opts (tableOf c) (initFlags (tableOf c))) f = _
  rw [matchOpts_bool opts (tableOf c) (initFlags (tableOf c)) f v hmem
    (tableOf_keys_nodup c) hbool]
  rw [initFlags_eq (tableOf c) (tableOf_keys_nodup c),
    dictGet_map_unset (tableOf c) f (List.mem_map_of_mem Prod.fst hmem)]
  by_cases h : opts.any (fun o => optMatches o f v) <;> simp [h]

/-- A class with two boolean options, `help` and `dry-run`. -/
def dryRunClass : CommandClass (Option Int) :=
  { usagestr := "usage: command [options]", description := "",
    optionList :=
      [("help", { short := "h", arg := "", desc := "show this help information" }),
       ("dry-run", { short := "n", arg := "", desc := "only print output" })],
    usageTextExtra := "", commands := [] }

theorem C5_witness :
    dictGet (initCommand dryRunClass ["-n", "pos"]).flags "dry-run"
      = some (Flagv.vbool true) ∧
    dictGet (initCommand dryRunClass ["-n", "pos"]).flags "help"
      = some Flagv.unset := by
  constructor
  · have h := C5_boolean_flag dryRunClass ["-n", "pos"] "dry-run"
      { short := "n", arg := "", desc := "only print output" } [("-n", "")] ["pos"]
      (by decide) rfl rfl
    exact h.trans (by decide)
  · have h := C5_boolean_flag dryRunClass ["-n", "pos"] "help"
      { short := "h", arg := "", desc := "show this help information" }
      [("-n", "")] ["pos"] (by decide) rfl rfl
    exact h.trans (by decide)

/-- C6: for every option table and every argument vector containing no
option tokens, parsing succeeds, the positional sequence equals the input
vector, and every declared flag is at the unset sentinel. -/
theorem C6_no_option_tokens {α : Type} (c : CommandClass α) (V : List String)
    (h : ∀ t ∈ V, isOptionToken t = false) :
    (initCommand c V).error = none ∧ (initCommand c V).args = V ∧
    ∀ f ∈ (tableOf c).map Prod.fst,
      dictGet (initCommand c V).flags f = some Flagv.unset := by
  have hget : getopt V (shortoptsOf (tableOf c)) (longoptsOf (tableOf c))
      = Except.ok ([], V) := by
    cases V with
    | nil => rfl
    | cons a rest =>
      have ha : (strStartsWith a "-" && !(a == "-")) = false := h a (by simp)
      show getoptLoop (rest.length + 1 + 1) [] (a :: rest) _ _
        = Except.ok ([], a :: rest)
      simp only [getoptLoop, ha, Bool.false_eq_true, if_false]
  unfold initCommand
  rw [hget]
  refine ⟨rfl, rfl, ?_⟩
  intro f hf
  have h0 : matchOpts [] (tableOf c) (initFlags (tableOf c))
      = initFlags (tableOf c) := rfl
  show dictGet (matchOpts [] (tableOf c) (initFlags (tableOf c))) f
    = some Flagv.unset
  rw [h0, initFlags_eq (tableOf c) (tableOf_keys_nodup c)]
  exact dictGet_map_unset (tableOf c) f hf

theorem C6_witness :
    (initCommand demoClass ["hello", "world"]).error = none ∧
    (initCommand demoClass ["hello", "world"]).args = ["hello", "world"] ∧
    dictGet (initCommand demoClass ["hello", "world"]).flags "help"
      = some Flagv.unset :=
  ⟨(C6_no_option_tokens demoClass ["hello", "world"] (by decide)).1,
   (C6_no_option_tokens demoClass ["hello", "world"] (by decide)).2.1,
   (C6_no_option_tokens demoClass ["hello", "world"] (by decide)).2.2 "help"
     (by decide)⟩

/-- C7: attribute access on the flag map errors with the
`Option '<name>' is not defined` message for every name that is not a
declared flag, and returns the stored value for every declared name. -/
theorem C7_getattr_undefined {α : Type} (c : CommandClass α) (argv : List String)
    (name : String) :
    (name ∉ (tableOf c).map Prod.fst →
      dictobject_getattr (initCommand c argv).flags name
        = Except.error ("Option '" ++ name ++ "' is not defined")) ∧
    (name ∈ (tableOf c).map Prod.fst →
      ∃ v, dictGet (initCommand c argv).flags name = some v ∧
        dictobject_getattr (initCommand c argv).flags name = Except.ok v) := by
  constructor
  · intro hnot
    have hkeys := initCommand_flags_keys c argv
    have hnone : dictGet (initCommand c argv).flags name = none := by
      apply dictGet_eq_none
      rw [hkeys]
      exact hnot
    unfold dictobject_getattr
    rw [hnone]
  · intro hmem
    have hkeys := initCommand_flags_keys c argv
    have hsome : (dictGet (initCommand c argv).flags name).isSome := by
      apply dictGet_isSome
      rw [hkeys]
      exact hmem
    obtain ⟨v, hv⟩ := Option.isSome_iff_exists.mp hsome
    refine ⟨v, hv, ?_⟩
    unfold dictobject_getattr
    rw [hv]

theorem C7_witness :
    dictobject_getattr (initCommand demoClass []).flags "bogus"
      = Except.error "Option 'bogus' is not defined" ∧
    ∃ v, dictGet (initCommand demoClass []).flags "help" = some v ∧
      dictobject_getattr (initCommand demoClass []).flags "help" = Except.ok v :=
  ⟨(C7_getattr_undefined demoClass [] "bogus").1 (by decide),
   (C7_getattr_undefined demoClass [] "help").2 (by decide)⟩

/-- C8: the process-level entry point prints `error: <message>` and
terminates with status 1 when construction produced a parse error, and
otherwise terminates with the value `run()` returned, or 0 when it
returned none. -/
theorem C8_run_and_exit_behaviour (c : CommandClass (Option Int))
    (argv : List String) :
    (∀ e, (initCommand c argv).error = some e →
      run_and_exit c argv = ProcessOutcome.exited ["error: " ++ e.msg] 1) ∧
    (∀ v, (initCommand c argv).error = none →
      (initCommand c argv).run = RunOutcome.result v →
      run_and_exit c argv = ProcessOutcome.exited [] (v.getD 0)) := by
  constructor
  · intro e he
    simp only [run_and_exit]
    rw [he]
  · intro v he hr
    simp only [run_and_exit]
    rw [he, hr]
    show ProcessOutcome.exited [] (sysExitStatus v) = ProcessOutcome.exited [] (v.getD 0)
    cases v <;> rfl

/-- A class with a registered `build` subcommand returning status 3. -/
def buildClass : CommandClass (Option Int) :=
  { usagestr := "usage: main [options] command", description := "",
    optionList := [], usageTextExtra := "",
    commands := [("build", fun _ => some 3)] }

theorem C8_witness :
    run_and_exit demoClass ["--bogus"]
      = ProcessOutcome.exited ["error: option --bogus not recognized"] 1 ∧
    run_and_exit buildClass ["build"] = ProcessOutcome.exited [] 3 :=
  ⟨(C8_run_and_exit_behaviour demoClass ["--bogus"]).1 bogusError rfl,
   (C8_run_and_exit_behaviour buildClass ["build"]).2 (some 3) rfl rfl⟩

/-- C9: on the tokenizer-failure path the constructor returns with every
declared flag name present in the flag map and mapped to the unset
sentinel, and with an empty positional-argument sequence. -/
theorem C9_error_path_flags_unset {α : Type} (c : CommandClass α)
    (argv : List String) (e : GetoptError)
    (h : getopt argv (shortoptsOf (tableOf c)) (longoptsOf (tableOf c))
      = Except.error e) :
    ((initCommand c argv).flags).map Prod.fst = (tableOf c).map Prod.fst ∧
    (∀ f ∈ (tableOf c).map Prod.fst,
      dictGet (initCommand c argv).flags f = some Flagv.unset) ∧
    (initCommand c argv).args = [] := by
  unfold initCommand
  rw [h]
  refine ⟨initFlags_keys _ (tableOf_keys_nodup c), ?_, rfl⟩
  intro f hf
  show dictGet (initFlags (tableOf c)) f = some Flagv.unset
  rw [initFlags_eq (tableOf c) (tableOf_keys_nodup c)]
  exact dictGet_map_unset (tableOf c) f hf

/-- The tokenizer error produced by `-z` against `demoClass`. -/
def unknownShortError : GetoptError := ⟨"option -z not recognized", "z"⟩

theorem C9_witness :
    getopt ["-z"] (shortoptsOf (tableOf demoClass)) (longoptsOf (tableOf demoClass))
      = Except.error unknownShortError ∧
    dictGet (initCommand demoClass ["-z"]).flags "help" = some Flagv.unset ∧
    dictGet (initCommand demoClass ["-z"]).flags "file" = some Flagv.unset ∧
    (initCommand demoClass ["-z"]).args = [] :=
  ⟨rfl,
   (C9_error_path_flags_unset demoClass ["-z"] unknownShortError rfl).2.1 "help"
     (by decide),
   (C9_error_path_flags_unset demoClass ["-z"] unknownShortError rfl).2.1 "file"
     (by decide),
   (C9_error_path_flags_unset demoClass ["-z"] unknownShortError rfl).2.2⟩

/-- C10: when two declared options share the same short letter, a single
occurrence of that short option sets the flag-map entry of every declared
option bearing that letter (the matching scan over the table does not stop
at the first match). -/
theorem C10_shared_short_sets_all (table : List (String × OptVal))
    (ch : Char) (hch : ch ≠ '-') (arg : String)
    (f1 f2 : String) (v1 v2 : OptVal)
    (hnd : (table.map Prod.fst).Nodup)
    (h1 : (f1, v1) ∈ table) (h2 : (f2, v2) ∈ table)
    (hs1 : v1.short = String.mk [ch]) (hs2 : v2.short = String.mk [ch])
    (fl : List (String × Flagv)) :
    dictGet (matchOpts [(String.mk ['-', ch], arg)] table fl) f1
        = some (flagValue (String.mk ['-', ch], arg) v1) ∧
    dictGet (matchOpts [(String.mk ['-', ch], arg)] table fl) f2
        = some (flagValue (String.mk ['-', ch], arg) v2) := by
  have hne : String.mk [ch] ≠ "-" := by
    intro hh
    apply hch
    have hd : [ch] = ['-'] := congrArg String.data hh
    injection hd with hhd htl
  have ht : strTake (strDrop (String.mk ['-', ch]) 1) 1 = String.mk [ch] := rfl
  have hm : ∀ (g : String) (v : OptVal), v.short = String.mk [ch] →
      optMatches (String.mk ['-', ch], arg) g v = true := by
    intro g v hv
    show (if strTake (strDrop (String.mk ['-', ch]) 1) 1 ≠ "-" then
        decide (strTake (strDrop (String.mk ['-', ch]) 1) 1 = v.short)
      else decide (strDrop (String.mk ['-', ch]) 2 = g)) = true
    have hcond : strTake (strDrop (String.mk ['-', ch]) 1) 1 ≠ "-" := by
      rw [ht]
      exact hne
    rw [if_pos hcond, ht, hv]
    simp
  constructor
  · simp only [matchOpts, List.foldl_cons, List.foldl_nil]
    rw [matchRow_mem table (String.mk ['-', ch], arg) fl f1 v1 h1 hnd,
      hm f1 v1 hs1]
    simp
  · simp only [matchOpts, List.foldl_cons, List.foldl_nil]
    rw [matchRow_mem table (String.mk ['-', ch], arg) fl f2 v2 h2 hnd,
      hm f2 v2 hs2]
    simp

/-- Two boolean options sharing the short letter `x`. -/
def sharedShortTable : List (String × OptVal) :=
  [("apple", { short := "x", arg := "", desc := "apple option" }),
   ("banana", { short := "x", arg := "", desc := "banana option" })]

theorem C10_witness :
    dictGet (matchOpts [("-x", "")] sharedShortTable (initFlags sharedShortTable))
        "apple" = some (Flagv.vbool true) ∧
    dictGet (matchOpts [("-x", "")] sharedShortTable (initFlags sharedShortTable))
        "banana" = some (Flagv.vbool true) :=
  C10_shared_short_sets_all sharedShortTable 'x' (by decide) ""
    "apple" "banana"
    { short := "x", arg := "", desc := "apple option" }
    { short := "x", arg := "", desc := "banana option" }
    (by decide) (by decide) (by decide) rfl rfl (initFlags sharedShortTable)
